import Mathlib

set_option autoImplicit false

/-!
Verification of the wire-protocol engine of a minimal blocking HTTP/1.1
client (status-line parsing, header parsing, URL parsing, body framing,
the redirect loop and request-prelude serialization).

Bytes are modeled as `Nat` values (< 256; ASCII inputs are < 128), byte
buffers as `List Nat`.  Machine `usize` arithmetic that can wrap is made
explicit with `% 2 ^ 64`.  Places where the original code can panic
(index out of bounds, integer underflow, `unwrap`) are modeled by a
dedicated `panicked` constructor or by `none`/`Option` results.
-/

/-- Byte values of a string (all inputs of interest are ASCII). -/
def bytes (s : String) : List Nat := s.toList.map Char.toNat

/-- ASCII lower-casing of one byte, as `u8::to_ascii_lowercase`. -/
def lowerByte (b : Nat) : Nat := if 65 ≤ b ∧ b ≤ 90 then b + 32 else b

/-- Byte-wise ASCII lower-casing; on ASCII data this agrees with Rust's
`str::to_lowercase` and `eq_ignore_ascii_case` comparisons. -/
def lowerBytes (l : List Nat) : List Nat := l.map lowerByte

/-- ASCII whitespace bytes (the ASCII part of Rust `char::is_whitespace`):
HT, LF, VT, FF, CR and space. -/
def isSpaceByte (b : Nat) : Bool := decide (b = 32 ∨ (9 ≤ b ∧ b ≤ 13))

/-- `str::trim` modeled on ASCII byte strings. -/
def trimBytes (l : List Nat) : List Nat :=
  ((l.dropWhile isSpaceByte).reverse.dropWhile isSpaceByte).reverse

def isDigitByte (b : Nat) : Bool := decide (48 ≤ b ∧ b ≤ 57)

/-- Digit run to its numeric value; `none` unless the list is a non-empty
run of ASCII digits. -/
def parseDigits (l : List Nat) : Option Nat :=
  if l = [] then none
  else if l.all isDigitByte then
    some (l.foldl (fun acc b => acc * 10 + (b - 48)) 0)
  else none

/-- Rust `str::parse` for an unsigned integer type with exclusive upper
bound `bound`: an optional leading `+`, then one or more ASCII digits,
and the value must fit. -/
def parseRustNat (bound : Nat) (l : List Nat) : Option Nat :=
  let l := match l with
    | 43 :: rest => rest
    | _ => l
  match parseDigits l with
  | some n => if n < bound then some n else none
  | none => none

/-- First index at which `pat` occurs as a contiguous sub-list
(`memchr::memmem::find`, or `windows(n).position` in url.rs). -/
def findSub (pat : List Nat) : List Nat → Option Nat
  | [] => if pat = [] then some 0 else none
  | b :: rest =>
    if (b :: rest).take pat.length = pat then some 0
    else (findSub pat rest).map (· + 1)

/-! ## Status line parsing (src/response.rs, `parse_status_line_from_header`) -/

inductive StatusResult where
  | ok (version : String) (status : Nat) (text : List Nat)
  | badStatus (msg : String)
  | panicked
  deriving DecidableEq, Repr

/-- Numeric value of the three digit bytes at offsets 9..11. -/
def statusCodeVal (s : List Nat) : Nat :=
  100 * (s.getD 9 0 - 48) + 10 * (s.getD 10 0 - 48) + (s.getD 11 0 - 48)

/-- `parse_status_line_from_header` (src/response.rs).  The source first
evaluates `s.len() < 12 || s[12] != b' ' || s[8] != b' '`; when the length
is exactly 12 the short-circuit reaches the out-of-bounds index `s[12]`,
which is a panic — modeled by `panicked`.  The status text it returns is
`&s[12..]`, i.e. it still carries the leading space and any trailing CRLF. -/
def parseStatusLine (s : List Nat) : StatusResult :=
  if s.length < 12 then .badStatus "Status line isn't formatted correctly"
  else if s.length = 12 then .panicked
  else if ¬(s.getD 12 0 = 32 ∧ s.getD 8 0 = 32) then
    .badStatus "Status line isn't formatted correctly"
  else if s.any (fun c => !decide (c < 128)) then .badStatus "Status line not ASCII"
  else if ¬(s.take 8 = bytes "HTTP/1.1") then
    .badStatus "HTTP version not formatted correctly"
  else if ((s.drop 9).take 3).any (fun c => !isDigitByte c) then
    .badStatus "HTTP status code must be a 3 digit number"
  else .ok "HTTP/1.1" (statusCodeVal s) (s.drop 12)

/-- The status-line grammar as the spec words it, for a version literal
`v` that includes its trailing space (`"HTTP/1.1 "` or `"HTTP/1.0 "`):
the version literal, three ASCII digits, a space, then reason text, all
ASCII. -/
def specStatusGrammar (v : String) (s : List Nat) : Prop :=
  13 ≤ s.length ∧ s.take 9 = bytes v ∧
    ((s.drop 9).take 3).all isDigitByte = true ∧
    s.getD 12 0 = 32 ∧ s.all (fun b => decide (b < 128)) = true

instance specStatusGrammar.instDecidable (v : String) (s : List Nat) :
    Decidable (specStatusGrammar v s) := by
  unfold specStatusGrammar; infer_instance

def StatusResult.isOk : StatusResult → Bool
  | .ok _ _ _ => true
  | _ => false

/-! ## Header block parsing (src/header.rs, `impl TryFrom<Vec<u8>> for Headers`) -/

inductive HeadersResult where
  | ok (indices : List (Nat × Nat × Nat)) (data : List Nat)
  | badHeader (msg : String)
  | panicked
  deriving DecidableEq, Repr

/-- Byte offsets of every LF in the buffer, in order
(`memchr::memchr_iter(b'\n', &v)`). -/
def nlPositions : List Nat → Nat → List Nat
  | [], _ => []
  | b :: rest, i =>
    if b = 10 then i :: nlPositions rest (i + 1) else nlPositions rest (i + 1)

/-- Position of the first colon in `v[start..stop]`
(`memchr::memchr(b':', &v[start..end])`), relative to `start`. -/
def findColonIdx (v : List Nat) (start stop : Nat) : Option Nat :=
  ((v.drop start).take (stop - start)).findIdx? (fun b => b = 58)

/-- Loop body of `Headers::try_from`.  For each LF position `n` the source
reads `v[n-1]`; when `n = 0` that index underflows, a panic in both debug
(overflow check) and release (wrapped index out of bounds) — modeled by
`panicked`.  `MAX_HEADER_SIZE = 1024` is the line-length bound; note that
the loop pushes every parsed index with no bound on their number. -/
def tryFromGo (v : List Nat) : List Nat → Nat → List (Nat × Nat × Nat) → HeadersResult
  | [], _, acc => .ok acc.reverse v
  | n :: rest, start, acc =>
    if n = 0 then .panicked
    else
      let e := if v.getD (n - 1) 0 = 13 then n - 1 else n
      match findColonIdx v start e with
      | none => .badHeader "HTTP header must be a key-value separated by a colon"
      | some c =>
        if e - start > 1024 then .badHeader "HTTP header size exceeds the max supported"
        else tryFromGo v rest (n + 1) ((start, start + c, e) :: acc)

/-- `Headers::try_from` (src/header.rs). -/
def headersTryFrom (v : List Nat) : HeadersResult :=
  tryFromGo v (nlPositions v 0) 0 []

def headersCount : HeadersResult → Option Nat
  | .ok idx _ => some idx.length
  | _ => none

/-- `Headers::header` (src/header.rs): scan the stored indices in order
and return the raw value bytes `data[colon+1..end]` of the first entry
whose name compares equal after lower-casing.  The source decodes the
name with `from_utf8(..).unwrap()` and compares `to_lowercase()` results;
on the ASCII data all theorems use, that is byte-wise ASCII lowering. -/
def headersLookup (indices : List (Nat × Nat × Nat)) (data : List Nat)
    (name : List Nat) : Option (List Nat) :=
  match indices with
  | [] => none
  | (s, c, e) :: rest =>
    if lowerBytes ((data.drop s).take (c - s)) = lowerBytes name then
      some ((data.drop (c + 1)).take (e - (c + 1)))
    else headersLookup rest data name

/-! ## URL parsing (src/url.rs) -/

inductive UrlError where
  | unsupportedLength
  | ascii
  | scheme
  | path
  | host
  deriving DecidableEq, Repr

inductive UScheme where
  | http
  | https
  deriving DecidableEq, Repr

/-- `Url` (src/url.rs): the original string plus the packed `meta` word
`0x0000_(host span)_(port)_(path span)`, each span one byte of start and
one byte of end offset. -/
structure UrlS where
  serialization : List Nat
  scheme : UScheme
  meta : Nat
  deriving DecidableEq, Repr

/-- `Url::parse` (src/url.rs), with the `tls` feature enabled so that the
`https` scheme and its default port 443 are compiled in.  Every offset is
narrowed `as u8`, modeled by `% 256`.  Note two offset-frame details kept
faithfully from the source: the port substring `&s[hi + k..hj]` starts at
the colon itself, and the host-span end `pk.unwrap_or(hj)` mixes the
colon offset relative to the authority with the absolute path offset. -/
def urlParse (s : List Nat) : Except UrlError UrlS :=
  if s.length = 0 ∨ s.length > 256 then .error .unsupportedLength
  else if ¬(s.all (fun b => decide (b < 128)) = true) then .error .ascii
  else
    match findSub (bytes "://") s with
    | none => .error .scheme
    | some si =>
      let schemeOpt : Option UScheme :=
        if s.take si = bytes "http" then some .http
        else if s.take si = bytes "https" then some .https
        else none
      match schemeOpt with
      | none => .error .scheme
      | some sch =>
        let hi := si + 3
        match (s.drop hi).findIdx? (fun b => b = 47) with
        | none => .error .host
        | some hjr =>
          let hj := hi + hjr
          let pk := ((s.drop hi).take hjr).findIdx? (fun b => b = 58)
          let v : Nat := match sch with
            | .http => 80
            | .https => 443
          let port := match pk with
            | some k => (parseRustNat 65536 ((s.drop (hi + k)).take (hj - (hi + k)))).getD v
            | none => v
          let hi8 := hi % 256
          let l := (match pk with | some k => k | none => hj) % 256
          let i8 := hj % 256
          let j8 := s.length % 256
          let ho := hi8 * 256 + l
          let pa := i8 * 256 + j8
          let meta := ho * 2 ^ 32 + port * 2 ^ 16 + pa
          .ok ⟨s, sch, meta⟩

/-- `Url::host_str` (src/url.rs): unpack the host span and slice the
stored string.  `none` models the panic of `&s[i..j]` when the span is
inverted or out of bounds. -/
def hostStr (u : UrlS) : Option (List Nat) :=
  let m := (u.meta / 2 ^ 32) % 2 ^ 16
  let i := m / 256
  let j := m % 256
  if i ≤ j ∧ j ≤ u.serialization.length then
    some ((u.serialization.drop i).take (j - i))
  else none

/-- `Url::path` (src/url.rs); `none` models the slice panic. -/
def pathStr (u : UrlS) : Option (List Nat) :=
  let m := u.meta % 2 ^ 16
  let i := m / 256
  let j := m % 256
  if i ≤ j ∧ j ≤ u.serialization.length then
    some ((u.serialization.drop i).take (j - i))
  else none

/-- `Url::port` (src/url.rs): `(((meta) << 32) >> 48) as u16` on `u64`. -/
def urlPort (u : UrlS) : Nat := ((u.meta * 2 ^ 32) % 2 ^ 64) / 2 ^ 48

/-! ## Reading status and headers (src/response.rs, `read_status_and_headers`
and `do_from_stream`) -/

/-- `ArrayVec::try_extend_from_slice`: all-or-nothing extension up to the
fixed capacity; the source ignores the error (`let _ = ..`), so an
overflowing extension silently drops the slice. -/
def extendCap (cap : Nat) (buf chunk : List Nat) : List Nat :=
  if buf.length + chunk.length ≤ cap then buf ++ chunk else buf

/-- Buffer loop of `read_status_and_headers` (src/response.rs).  The
network stream is modeled as a byte list delivered greedily: each
`read(&mut buffer[carry..])` returns as many bytes as fit in the free
buffer space (one possible, and common, delivery schedule).  `carryB` is
`buffer[..carry]`, the bytes carried across iterations.  Returns
`(buf, carryover, remaining stream)`; `none` models the panic of
`&buffer[..c - 3]` when fewer than 3 bytes are available and no
terminator was found.  The first component is capped at 4096 bytes
(`BufVec`), the carry-over at 4096 (`CarryOver`). -/
def rsahGo : Nat → List Nat → List Nat → List Nat → Option (List Nat × List Nat × List Nat)
  | 0, _, _, _ => none
  | fuel + 1, buf, carryB, stream =>
    let space := 4096 - carryB.length
    let chunk := stream.take space
    if chunk.length = 0 then some (buf, carryB, stream)
    else
      let rest := stream.drop space
      let bb := carryB ++ chunk
      let c := bb.length
      match findSub (bytes "\r\n\r\n") bb with
      | some i => some (extendCap 4096 buf (bb.take (i + 2)), bb.drop (i + 4), rest)
      | none =>
        if c < 3 then none
        else rsahGo fuel (extendCap 4096 buf (bb.take (c - 3))) (bb.drop (c - 3)) rest

/-- `read_status_and_headers` (src/response.rs) on a greedily delivered
stream. -/
def readStatusAndHeaders (stream : List Nat) : Option (List Nat × List Nat × List Nat) :=
  rsahGo (stream.length + 1) [] [] stream

/-- The response model: the drained status line, the parsed header
indices and their backing data, the carry-over bytes read past the
header terminator, the bytes still in the stream, whether the request
was a HEAD, and whether the configured deadline has expired by the time
the body reader is built (`time_until_deadline` in `into_reader`, a
wall-clock check modeled as a boolean). -/
structure RespModel where
  statusLine : List Nat
  hindices : List (Nat × Nat × Nat)
  hdata : List Nat
  carryover : List Nat
  rest : List Nat
  isHead : Bool
  deadlineExpired : Bool
  deriving DecidableEq, Repr

inductive RespResult where
  | ok (r : RespModel)
  | err (msg : String)
  | panicked
  deriving DecidableEq, Repr

/-- `Response::do_from_stream` (src/response.rs): read up to the header
terminator, split the buffer at the first LF into status line and header
block (`headers.drain(..i+1)`), and parse the block with
`Headers::try_from`.  A missing LF is a `BadStatus` error. -/
def doFromStream (isHead : Bool) (stream : List Nat) : RespResult :=
  match readStatusAndHeaders stream with
  | none => .panicked
  | some (buf, carry, rest) =>
    match buf.findIdx? (fun b => b = 10) with
    | none => .err "BadStatus"
    | some i =>
      match headersTryFrom (buf.drop (i + 1)) with
      | .ok idx data => .ok ⟨buf.take (i + 1), idx, data, carry, rest, isHead, false⟩
      | .badHeader m => .err m
      | .panicked => .panicked

/-- `Response::header` (src/response.rs): look the name up in the parsed
headers, decode as UTF-8 and trim.  Modeled for ASCII data, where the
UTF-8 decoding always succeeds and Rust's trim is ASCII trim. -/
def respHeaderM (r : RespModel) (name : String) : Option (List Nat) :=
  (headersLookup r.hindices r.hdata (bytes name)).map trimBytes

/-! ## Body framing (src/response.rs, `Response::into_reader`) -/

inductive Framing where
  | errReader
  | chunked
  | limited (n : Nat)
  | untilClose
  deriving DecidableEq, Repr

/-- `let is_http10 = http_version.eq_ignore_ascii_case("HTTP/1.0")`. -/
def isHttp10V (v : String) : Bool := lowerBytes (bytes v) == lowerBytes (bytes "HTTP/1.0")

/-- `let is_close = header("connection").map(|c| c.eq_ignore_ascii_case("close"))`. -/
def isCloseM (r : RespModel) : Bool :=
  ((respHeaderM r "connection").map
    (fun c => lowerBytes c == lowerBytes (bytes "close"))).getD false

/-- `let is_chunked = header("transfer-encoding").map(|enc| !enc.is_empty())`. -/
def isChunkedM (r : RespModel) : Bool :=
  ((respHeaderM r "transfer-encoding").map (fun enc => !enc.isEmpty)).getD false

/-- `let has_no_body = is_head || matches 204 | 304`. -/
def hasNoBodyM (r : RespModel) (status : Nat) : Bool :=
  r.isHead || status == 204 || status == 304

/-- `usize` subtraction `a - b` as compiled in release mode: two's
complement wrap-around (debug builds panic on the same underflow). -/
def usizeSub (a b : Nat) : Nat := (2 ^ 64 + a - b) % 2 ^ 64

/-- The framing decision of `Response::into_reader` (src/response.rs).
`none` models the `get_status_line().unwrap()` panic on an unparsable
status line.  The reader limit for a `Content-Length` response is
`len - self.carryover.len()` in `usize` arithmetic, which wraps when the
carry-over is longer than the announced length. -/
def intoReaderFraming (r : RespModel) : Option Framing :=
  match parseStatusLine r.statusLine with
  | .ok version status _ =>
    let isHttp10 := isHttp10V version
    let isClose := isCloseM r
    let hasNoBody := hasNoBodyM r status
    let isChunked := isChunkedM r
    let useChunked := !isHttp10 && !hasNoBody && isChunked
    let limitBytes : Option Nat :=
      if isHttp10 || isClose then none
      else if hasNoBody then some 0
      else (respHeaderM r "content-length").bind (parseRustNat (2 ^ 64))
    if r.deadlineExpired then some .errReader
    else
      match useChunked, limitBytes with
      | true, _ => some .chunked
      | false, some len => some (.limited (usizeSub len r.carryover.length))
      | false, none => some .untilClose
  | _ => none

/-! ## `LimitedRead` (src/response.rs, `impl Read for LimitedRead`) -/

inductive ReadOut where
  | ok (data : List Nat)
  | eofErr
  deriving DecidableEq, Repr

/-- One `LimitedRead::read` call (src/response.rs) with a caller buffer of
`bufLen` bytes, over an underlying stream modeled as a byte list read
greedily (a read returns `min(requested, available)` bytes).  Returns the
outcome, the new position, and the remaining stream.  An underlying
`Ok(0)` before the limit is reached is turned into the `UnexpectedEof`
error (`ReadOut.eofErr`); at the limit the call returns `Ok(0)`
(`ReadOut.ok []`) without touching the stream. -/
def limitedRead (limit pos : Nat) (stream : List Nat) (bufLen : Nat) :
    ReadOut × Nat × List Nat :=
  let left := limit - pos
  if left = 0 then (.ok [], pos, stream)
  else
    let want := min left bufLen
    let n := min want stream.length
    if n = 0 then (.eofErr, pos, stream)
    else (.ok (stream.take n), pos + n, stream.drop n)

/-- `read_to_end` driven against `LimitedRead`: repeated reads (buffer of
`limit` bytes) until `Ok(0)` or an error; returns the collected bytes and
whether the loop ended in an error. -/
def lrReadAllGo : Nat → Nat → Nat → List Nat → List Nat → List Nat × Bool
  | 0, _, _, _, acc => (acc, true)
  | fuel + 1, limit, pos, stream, acc =>
    match limitedRead limit pos stream limit with
    | (.ok [], _, _) => (acc, false)
    | (.ok d, pos2, st2) => lrReadAllGo fuel limit pos2 st2 (acc ++ d)
    | (.eofErr, _, _) => (acc, true)

def lrReadAll (limit : Nat) (stream : List Nat) : List Nat × Bool :=
  lrReadAllGo (stream.length + 2) limit 0 stream []

/-- The body of a `Content-Length` response as the caller sees it: the
carry-over bytes first (`ComboReader` in src/readers.rs serves the
carry-over before touching the stream), then everything the
`LimitedRead` reader yields. -/
def comboReadAll (carry : List Nat) (limit : Nat) (stream : List Nat) :
    List Nat × Bool :=
  let (body, errored) := lrReadAll limit stream
  (carry ++ body, errored)

/-! ## Redirect loop (src/unit.rs, `connect`) -/

/-- One response as the redirect loop consumes it: its status code and
the value of its `Location` header, if any. -/
structure RespSum where
  status : Nat
  location : Option (List Nat)
  deriving DecidableEq, Repr

inductive ConnOut where
  | done (status : Nat) (history : List (List Nat))
  | tooManyRedirects
  | noMoreResponses
  deriving DecidableEq, Repr

/-- Modelled from the spec: `url::Url::join` comes from the external url
crate, which is not part of src/; the spec says the Location value is
resolved against the current URL, supporting relative references.  We
model: absolute http(s) locations replace the URL, other references are
resolved against (appended to) it. -/
def joinUrl (base loc : List Nat) : List Nat :=
  if loc.take 4 = bytes "http" then loc else base ++ loc

/-- The `match status` that recomputes the method (src/unit.rs): 301/302/
303 keep GET and HEAD and downgrade everything else to GET; 307/308 are
followed only for GET/HEAD/OPTIONS/TRACE; any other status (including a
307/308 with a body-bearing method) breaks out of the loop (`none`). -/
def newMethodFor (status : Nat) (meth : List Nat) : Option (List Nat) :=
  if status = 301 ∨ status = 302 ∨ status = 303 then
    some (if meth = bytes "GET" ∨ meth = bytes "HEAD" then meth else bytes "GET")
  else if (status = 307 ∨ status = 308) ∧
      (meth = bytes "GET" ∨ meth = bytes "HEAD" ∨
        meth = bytes "OPTIONS" ∨ meth = bytes "TRACE") then
    some meth
  else none

/-- The redirect loop of `connect` (src/unit.rs).  Each element of
`responses` is what the next `connect_inner` call produces; the returned
counter is how many of them were consumed (each consumption is one full
request/response round trip, i.e. network I/O).  The loop checks
`(300..399).contains(&status)` (300 ≤ s < 399), breaks when the redirect
limit `redirects` is 0, and errs with `TooManyRedirects` when
`history.len() + 1 >= redirects`.  The `Content-Length` header retention
on the recreated unit is not modeled (headers do not affect the loop). -/
def connectGo (redirects : Nat) : List Nat → List Nat → List (List Nat) → Nat →
    List RespSum → ConnOut × Nat
  | _, _, _, consumed, [] => (.noMoreResponses, consumed)
  | meth, url, hist, consumed, r :: rest =>
    let consumed := consumed + 1
    if ¬(300 ≤ r.status ∧ r.status < 399) ∨ redirects = 0 then
      (.done r.status hist, consumed)
    else if hist.length + 1 ≥ redirects then (.tooManyRedirects, consumed)
    else
      match r.location with
      | none => (.done r.status hist, consumed)
      | some loc =>
        match newMethodFor r.status meth with
        | none => (.done r.status hist, consumed)
        | some meth2 =>
          connectGo redirects meth2 (joinUrl url loc) (hist ++ [url]) consumed rest

/-- `connect` (src/unit.rs), starting with an empty history.  The default
agent configuration (src/agent.rs, `AgentBuilder::new`) sets
`redirects: 5`. -/
def connectR (redirects : Nat) (meth url : List Nat) (responses : List RespSum) :
    ConnOut × Nat :=
  connectGo redirects meth url [] 0 responses

/-- `AgentConfig.redirects` default (src/agent.rs). -/
def defaultRedirects : Nat := 5

/-! ## Request prelude (src/unit.rs, `send_prelude`) -/

/-- `Header` (src/header.rs): the unmodified bytes of one header field
(no trailing CRLF) and the position of the colon within them. -/
structure HeaderM where
  line : List Nat
  index : Nat
  deriving DecidableEq, Repr

/-- `Header::name` as raw bytes, `&line[0..index]`.  The source decodes
them with `from_utf8(..).expect(..)`; theorems that rely on the decoded
name carry an ASCII hypothesis so the decode cannot panic. -/
def HeaderM.nameB (h : HeaderM) : List Nat := h.line.take h.index

/-- Bytes field-value characters may use: SP, HTAB and VCHAR (0x21-0x7E),
`is_field_vchar_or_obs_fold` in src/header.rs. -/
def isFieldVchar (b : Nat) : Bool := decide (b = 32 ∨ b = 9 ∨ (33 ≤ b ∧ b ≤ 126))

/-- `Header::value` (src/header.rs): UTF-8 decode of `&line[index+1..]`,
trimmed, kept only when every remaining byte is a field value character.
Modeled for ASCII lines (where UTF-8 decoding is the identity and Rust
trim is ASCII trim): any non-ASCII byte yields `none`, which matches the
source except when a UTF-8-valid value's only non-ASCII characters are
leading or trailing Unicode whitespace; theorems quantifying over
headers therefore carry ASCII hypotheses. -/
def HeaderM.valueB (h : HeaderM) : Option (List Nat) :=
  let raw := h.line.drop (h.index + 1)
  if raw.all (fun b => decide (b < 128)) then
    let t := trimBytes raw
    if t.all isFieldVchar then some t else none
  else none

/-- `Header::is_name` (src/header.rs): ASCII-case-insensitive comparison
of the decoded name with `other`. -/
def HeaderM.isNameB (h : HeaderM) (other : String) : Bool :=
  lowerBytes h.nameB == lowerBytes (bytes other)

/-- `get_header` (src/header.rs): first header with a matching name, then
its value. -/
def getHeaderM (headers : List HeaderM) (name : String) : Option (List Nat) :=
  (headers.find? (fun h => h.isNameB name)).bind HeaderM.valueB

/-- `has_header` (src/header.rs). -/
def hasHeaderM (headers : List HeaderM) (name : String) : Bool :=
  (getHeaderM headers name).isSome

/-- Modelled from the spec: src/unit.rs builds requests against the
external url crate's `Url` (not the one in src/url.rs); the spec's
coordinate interface is scheme, host, optional port, path and optional
query. -/
structure UrlC where
  scheme : String
  host : List Nat
  port : Option Nat
  path : List Nat
  query : Option (List Nat)
  deriving DecidableEq, Repr

/-- `Unit` (src/unit.rs): method, target URL and caller headers, plus the
agent's configured user-agent string. -/
structure UnitM where
  method : List Nat
  url : UrlC
  headers : List HeaderM
  userAgent : List Nat
  deriving DecidableEq, Repr

/-- The `Host` header `send_prelude` fabricates when the caller set none:
`host` alone when the port is absent or equals the scheme default
(80 for http, 443 for https, no default otherwise), else `host:port`. -/
def hostField (u : UnitM) : List Nat × List Nat :=
  match u.url.port with
  | some port =>
    let schemeDefault : Nat :=
      if u.url.scheme = "http" then 80
      else if u.url.scheme = "https" then 443
      else 0
    if schemeDefault ≠ 0 ∧ schemeDefault = port then (bytes "Host", u.url.host)
    else (bytes "Host", u.url.host ++ bytes ":" ++ bytes (Nat.repr port))
  | none => (bytes "Host", u.url.host)

/-- The caller-header loop of `send_prelude` (src/unit.rs): each header is
written unless the request is a redirected retry (`redir`) and the header
is named `Authorization`; headers whose value cannot be decoded are
skipped.  Sensitive headers (`Authorization`, `Cookie`) go through
`write_sensitive_header`, which emits the same `name: value` bytes and
only additionally records a span for debug logging, so both paths produce
one `(name, value)` field. -/
def callerFields : List HeaderM → Bool → List (List Nat × List Nat)
  | [], _ => []
  | h :: rest, redir =>
    (if !redir || !h.isNameB "Authorization" then
      match h.valueB with
      | some v => [(h.nameB, v)]
      | none => []
    else []) ++ callerFields rest redir

/-- The header fields `send_prelude` (src/unit.rs) writes, in order: a
`Host` header unless the caller set one, default `User-Agent` and
`Accept` unless the caller set them, then the caller headers. -/
def sendPreludeFields (u : UnitM) (redir : Bool) : List (List Nat × List Nat) :=
  (if !hasHeaderM u.headers "host" then [hostField u] else []) ++
  (if !hasHeaderM u.headers "user-agent" then [(bytes "User-Agent", u.userAgent)] else []) ++
  (if !hasHeaderM u.headers "accept" then [(bytes "Accept", bytes "*/*")] else []) ++
  callerFields u.headers redir

/-- `PreludeBuilder::write_header`: `name: value` and CRLF. -/
def fieldBytes (f : List Nat × List Nat) : List Nat :=
  f.1 ++ bytes ": " ++ f.2 ++ bytes "\r\n"

/-- `PreludeBuilder::write_request_line`: `METHOD path[?query] HTTP/1.1`
and CRLF, with `query` defaulted to empty (`query().unwrap_or_default()`). -/
def requestLineBytes (u : UnitM) : List Nat :=
  let q := (u.url.query).getD []
  u.method ++ bytes " " ++ u.url.path ++
    (if q.isEmpty then [] else bytes "?" ++ q) ++ bytes " HTTP/1.1\r\n"

/-- The full prelude `send_prelude` writes with one `write_all`: request
line, the header fields, and the terminating blank line. -/
def sendPrelude (u : UnitM) (redir : Bool) : List Nat :=
  requestLineBytes u ++ ((sendPreludeFields u redir).map fieldBytes).flatten ++ bytes "\r\n"

/-! ## Concrete inputs used by individual claims -/

/-- The response `do_from_stream` builds from
`"HTTP/1.1 200 OK\r\nConnection: close\r\nTransfer-Encoding: chunked\r\n\r\n"`. -/
def c1Resp : RespModel :=
  ⟨bytes "HTTP/1.1 200 OK\r\n", [(0, 10, 17), (19, 36, 45)],
    bytes "Connection: close\r\nTransfer-Encoding: chunked\r\n", [], [], false, false⟩

/-- A `Connection: close` response without Transfer-Encoding (and with a
Content-Length that must be ignored), used to witness the amended C1. -/
def c1RespClose : RespModel :=
  ⟨bytes "HTTP/1.1 200 OK\r\n", [(0, 10, 17), (19, 33, 36)],
    bytes "Connection: close\r\nContent-Length: 5\r\n", [], [], false, false⟩

/-- The response built from a single read delivering
`"HTTP/1.1 200 OK\r\nContent-Length: 5\r\n\r\n"` together with the 5 body
bytes `"hello"` and the 5 next-response bytes `"NEXT!"`. -/
def c2Resp : RespModel :=
  ⟨bytes "HTTP/1.1 200 OK\r\n", [(0, 14, 17)], bytes "Content-Length: 5\r\n",
    bytes "helloNEXT!", [], false, false⟩

/-- 129 header lines `a:b` — one more than `MAX_HEADER_COUNT = 128`. -/
def c4Input : List Nat := List.flatten (List.replicate 129 (bytes "a:b\n"))

/-- A single header line of 1027 bytes, above `MAX_HEADER_SIZE = 1024`. -/
def c4LongLine : List Nat := List.replicate 1025 97 ++ bytes ":v\n"

def c5Url : UrlS := ⟨bytes "http://a:1/", .http, 7700881607179⟩

def c6Url : UrlS := ⟨bytes "http://example.com:8080/", .http, 7743831283480⟩

/-- A 302 redirect carrying an absolute Location. -/
def redir302v : RespSum := ⟨302, some (bytes "http://host/next")⟩

/-- A plain 200 response. -/
def ok200v : RespSum := ⟨200, none⟩

/-! ## Claim theorems -/

/-- C1 counterexample: a response carrying both `Connection: close` and
`Transfer-Encoding: chunked` (HTTP/1.1, status 200, not HEAD) is
chunk-decoded by `into_reader`, not read until close as the claim
states — `use_chunked` never consults `is_close`. -/
theorem c1_counterexample :
    doFromStream false
      (bytes "HTTP/1.1 200 OK\r\nConnection: close\r\nTransfer-Encoding: chunked\r\n\r\n") =
      .ok c1Resp ∧
    isCloseM c1Resp = true ∧ isHttp10V "HTTP/1.1" = false ∧
    intoReaderFraming c1Resp = some .chunked := by
  decide

/-- C2: the code is wrong on the claimed scenario.  With
`Content-Length: 5`, body `"hello"` and next-response bytes `"NEXT!"`
arriving in the same read as the headers, the carry-over holds all 10
bytes, and `into_reader` computes the reader limit
`len - carryover.len() = 5 - 10`, which wraps to `2^64 - 5` (debug
builds panic on the underflow).  Reading the body then yields all 10
carried bytes — the next response's bytes are consumed as body instead
of being preserved — and ends in an `UnexpectedEof` error. -/
theorem c2_carryover_underflow :
    doFromStream false
      (bytes "HTTP/1.1 200 OK\r\nContent-Length: 5\r\n\r\nhelloNEXT!") = .ok c2Resp ∧
    c2Resp.carryover = bytes "helloNEXT!" ∧
    intoReaderFraming c2Resp = some (.limited (2 ^ 64 - 5)) ∧
    comboReadAll c2Resp.carryover (2 ^ 64 - 5) c2Resp.rest = (bytes "helloNEXT!", true) := by
  decide

/-- C3 counterexample: `"HTTP/1.0 200 OK"` matches the spec's status-line
grammar for the `HTTP/1.0` variant, yet `parse_status_line_from_header`
rejects it — the version comparison only accepts the literal
`HTTP/1.1`. -/
theorem c3_counterexample :
    specStatusGrammar "HTTP/1.0 " (bytes "HTTP/1.0 200 OK") ∧
    parseStatusLine (bytes "HTTP/1.0 200 OK") =
      .badStatus "HTTP version not formatted correctly" := by
  decide

set_option maxRecDepth 4096 in
/-- C4: the header-count bound is not enforced.  A block of 129 header
lines — one more than `MAX_HEADER_COUNT = 128` — parses successfully
(the `TinyVec` of indices silently spills to the heap), while the
line-length bound does yield `BadHeader` as claimed. -/
theorem c4_header_count_unbounded :
    headersCount (headersTryFrom c4Input) = some 129 ∧
    headersTryFrom c4LongLine =
      .badHeader "HTTP header size exceeds the max supported" :=
  ⟨by rfl, by rfl⟩

/-- C5: `Url::parse` accepts `"http://a:1/"` but packs an inverted host
span.  The colon position (1, relative to the authority) is stored as
the span end against the absolute span start 7, so `host_str()` slices
`&s[7..1]` and panics. -/
theorem c5_host_span_panics :
    urlParse (bytes "http://a:1/") = .ok c5Url ∧ hostStr c5Url = none :=
  ⟨by rfl, by rfl⟩

/-- C6: an explicit port is never honoured.  For
`"http://example.com:8080/"` the port substring is taken from the colon
itself (`&s[hi + k..hj]` is `":8080"`), so the `u16` parse always fails
and the port silently falls back to the scheme default 80; the host span
ends at the colon's authority-relative offset, so `host_str()` returns
`"exam"` rather than `"example.com"`. -/
theorem c6_port_ignored :
    urlParse (bytes "http://example.com:8080/") = .ok c6Url ∧
    urlPort c6Url = 80 ∧ hostStr c6Url = some (bytes "exam") :=
  ⟨by rfl, by rfl, by rfl⟩

/-- C7 counterexample: with the default maximum of 5 redirects, a stream
of five consecutive redirect responses followed by a 200 does not reach
the 200 — the fifth received redirect already yields `TooManyRedirects`
(`history.len() + 1 >= redirects` with four follows recorded), consuming
only 5 responses. -/
theorem c7_counterexample :
    connectR defaultRedirects (bytes "GET") (bytes "http://host/old")
      (List.replicate 5 redir302v ++ [ok200v]) = (.tooManyRedirects, 5) := by
  decide

/-- C10: `Headers::try_from` is not total.  On a buffer whose first byte
is LF, the loop evaluates `v[n-1]` with `n = 0`, an index underflow that
panics; a non-UTF-8 name before the colon, by contrast, is stored
without error. -/
theorem c10_leading_lf_panics :
    headersTryFrom [10] = .panicked ∧
    headersTryFrom [255, 58, 98, 10] = .ok [(0, 1, 3)] [255, 58, 98, 10] := by
  decide

/-! ## General list helpers -/

lemma getD_take (l : List Nat) (n i d : Nat) (h : i < n) :
    (l.take n).getD i d = l.getD i d := by
  simp [List.getD_eq_getElem?_getD, List.getElem?_take, h]

lemma take_succ_getD (l : List Nat) (n : Nat) (h : n < l.length) :
    l.take (n + 1) = l.take n ++ [l.getD n 0] := by
  rw [List.take_succ]
  simp [List.getElem?_eq_getElem h, List.getD_eq_getElem?_getD]

/-! ## C3: status-line grammar -/

lemma parseStatusLine_of_grammar (s : List Nat) (h : specStatusGrammar "HTTP/1.1 " s) :
    parseStatusLine s = .ok "HTTP/1.1" (statusCodeVal s) (s.drop 12) := by
  obtain ⟨hlen, htake, hdig, h12, hascii⟩ := h
  have h8 : s.getD 8 0 = 32 := by
    have h9 := getD_take s 9 8 0 (by omega)
    rw [htake] at h9
    exact h9.symm.trans (by decide)
  have ht8 : s.take 8 = bytes "HTTP/1.1" := by
    have h88 : (s.take 9).take 8 = s.take 8 := by simp [List.take_take]
    rw [← h88, htake]
    decide
  have hAsciiAny : ¬((s.any fun c => !decide (c < 128)) = true) := by
    intro hc
    obtain ⟨x, hx, hb⟩ := List.any_eq_true.mp hc
    have hax := List.all_eq_true.mp hascii x hx
    rw [hax] at hb
    exact absurd hb (by decide)
  have hDigAny : ¬(((s.drop 9).take 3).any (fun c => !isDigitByte c) = true) := by
    intro hc
    obtain ⟨x, hx, hb⟩ := List.any_eq_true.mp hc
    have hax := List.all_eq_true.mp hdig x hx
    rw [hax] at hb
    exact absurd hb (by decide)
  unfold parseStatusLine
  rw [if_neg (show ¬ s.length < 12 by omega), if_neg (show ¬ s.length = 12 by omega),
    if_neg (not_not_intro ⟨h12, h8⟩), if_neg hAsciiAny, if_neg (not_not_intro ht8),
    if_neg hDigAny]

lemma grammar_of_parseStatusLine_ok (s : List Nat) (v : String) (st : Nat) (t : List Nat)
    (h : parseStatusLine s = .ok v st t) : specStatusGrammar "HTTP/1.1 " s := by
  unfold parseStatusLine at h
  by_cases h1 : s.length < 12
  · rw [if_pos h1] at h; simp at h
  rw [if_neg h1] at h
  by_cases h2 : s.length = 12
  · rw [if_pos h2] at h; simp at h
  rw [if_neg h2] at h
  by_cases h3 : ¬(s.getD 12 0 = 32 ∧ s.getD 8 0 = 32)
  · rw [if_pos h3] at h; simp at h
  rw [if_neg h3] at h
  push_neg at h3
  by_cases h4 : (s.any fun c => !decide (c < 128)) = true
  · rw [if_pos h4] at h; simp at h
  rw [if_neg h4] at h
  by_cases h5 : ¬(s.take 8 = bytes "HTTP/1.1")
  · rw [if_pos h5] at h; simp at h
  rw [if_neg h5] at h
  push_neg at h5
  by_cases h6 : ((s.drop 9).take 3).any (fun c => !isDigitByte c) = true
  · rw [if_pos h6] at h; simp at h
  rw [if_neg h6] at h
  refine ⟨by omega, ?_, ?_, h3.1, ?_⟩
  · rw [take_succ_getD s 8 (by omega), h5, h3.2]
    decide
  · refine List.all_eq_true.mpr fun x hx => ?_
    cases hdx : isDigitByte x with
    | true => rfl
    | false => exact absurd (List.any_eq_true.mpr ⟨x, hx, by rw [hdx]; rfl⟩) h6
  · refine List.all_eq_true.mpr fun x hx => ?_
    cases hdx : decide (x < 128) with
    | true => rfl
    | false => exact absurd (List.any_eq_true.mpr ⟨x, hx, by rw [hdx]; rfl⟩) h4

lemma parseStatusLine_panicked_iff (s : List Nat) :
    parseStatusLine s = .panicked ↔ s.length = 12 := by
  constructor
  · intro h
    unfold parseStatusLine at h
    by_cases h1 : s.length < 12
    · rw [if_pos h1] at h; simp at h
    rw [if_neg h1] at h
    by_cases h2 : s.length = 12
    · exact h2
    rw [if_neg h2] at h
    by_cases h3 : ¬(s.getD 12 0 = 32 ∧ s.getD 8 0 = 32)
    · rw [if_pos h3] at h; simp at h
    rw [if_neg h3] at h
    by_cases h4 : (s.any fun c => !decide (c < 128)) = true
    · rw [if_pos h4] at h; simp at h
    rw [if_neg h4] at h
    by_cases h5 : ¬(s.take 8 = bytes "HTTP/1.1")
    · rw [if_pos h5] at h; simp at h
    rw [if_neg h5] at h
    by_cases h6 : ((s.drop 9).take 3).any (fun c => !isDigitByte c) = true
    · rw [if_pos h6] at h; simp at h
    · rw [if_neg h6] at h; simp at h
  · intro h12
    unfold parseStatusLine
    rw [if_neg (show ¬ s.length < 12 by omega), if_pos h12]

/-- C3 (amended): `parse_status_line_from_header` accepts exactly the
grammar `HTTP/1.1 ` + 3 ASCII digits + space + ASCII reason text — the
`HTTP/1.0` variant is rejected with `BadStatus`.  Every deviating input
returns a `BadStatus` error, except those of length exactly 12, where the
short-circuited bounds check reaches the out-of-bounds index `s[12]` and
panics instead of erroring. -/
theorem c3_status_grammar (s : List Nat) :
    (specStatusGrammar "HTTP/1.1 " s →
      parseStatusLine s = .ok "HTTP/1.1" (statusCodeVal s) (s.drop 12)) ∧
    (¬ specStatusGrammar "HTTP/1.1 " s →
      if s.length = 12 then parseStatusLine s = .panicked
      else ∃ m, parseStatusLine s = .badStatus m) := by
  constructor
  · exact parseStatusLine_of_grammar s
  · intro hn
    split_ifs with h12
    · exact (parseStatusLine_panicked_iff s).mpr h12
    · cases hr : parseStatusLine s with
      | ok v st t => exact absurd (grammar_of_parseStatusLine_ok s v st t hr) hn
      | badStatus m => exact ⟨m, rfl⟩
      | panicked => exact absurd ((parseStatusLine_panicked_iff s).mp hr) h12

/-- Witness for C3: the well-formed status line `HTTP/1.1 200 OK\r\n`
parses to code 200 with text `" OK\r\n"`. -/
theorem c3_status_grammar_witness :
    parseStatusLine (bytes "HTTP/1.1 200 OK\r\n") =
      .ok "HTTP/1.1" (statusCodeVal (bytes "HTTP/1.1 200 OK\r\n"))
        ((bytes "HTTP/1.1 200 OK\r\n").drop 12) :=
  (c3_status_grammar (bytes "HTTP/1.1 200 OK\r\n")).1 (by decide)

/-! ## C1: `Connection: close` and the framing decision -/

/-- C1 (amended): for a non-HTTP/1.0 response carrying `Connection:
close`, the framing is `UntilClose` — ignoring any `Content-Length` —
only as long as no non-empty `Transfer-Encoding` header is present (or
the response can carry no body); when a non-empty `Transfer-Encoding` is
present on a body-bearing response, the chunked reader is chosen, i.e.
`Transfer-Encoding` takes precedence over `Connection: close`. -/
theorem c1_close_framing (r : RespModel) (v : String) (st : Nat) (txt : List Nat)
    (hd : r.deadlineExpired = false)
    (hp : parseStatusLine r.statusLine = .ok v st txt)
    (h10 : isHttp10V v = false) (hc : isCloseM r = true) :
    intoReaderFraming r =
      some (if isChunkedM r && !hasNoBodyM r st then .chunked else .untilClose) := by
  cases hch : isChunkedM r <;> cases hnb : hasNoBodyM r st <;>
    simp [intoReaderFraming, hp, hd, h10, hc, hch, hnb]

/-- Witness for C1 (amended): a `Connection: close` response with a
`Content-Length: 5` header and no `Transfer-Encoding` is read until
close. -/
theorem c1_close_framing_witness :
    intoReaderFraming c1RespClose =
      some (if isChunkedM c1RespClose && !hasNoBodyM c1RespClose 200
        then .chunked else .untilClose) :=
  c1_close_framing c1RespClose "HTTP/1.1" 200 (bytes " OK\r\n") rfl (by decide)
    (by decide) (by decide)

/-! ## C7: redirect counting -/

/-- C7 (amended): with the default maximum of 5 redirects, the loop in
`connect` follows only `redirects - 1 = 4` consecutive redirects: four
302 responses followed by a 200 produce the 200 (consuming 5 responses),
while a fifth consecutive received redirect yields `TooManyRedirects`
after consuming exactly 5 responses — whatever else (`ys`) the stream
would deliver is never requested, so no network I/O happens past the
limit. -/
theorem c7_redirect_limit (ys : List RespSum) :
    connectR defaultRedirects (bytes "GET") (bytes "http://host/old")
        (List.replicate 4 redir302v ++ (ok200v :: ys)) =
      (.done 200 [bytes "http://host/old", bytes "http://host/next",
        bytes "http://host/next", bytes "http://host/next"], 5) ∧
    connectR defaultRedirects (bytes "GET") (bytes "http://host/old")
        (List.replicate 5 redir302v ++ ys) = (.tooManyRedirects, 5) :=
  ⟨rfl, rfl⟩

/-! ## C8: the `LimitedRead` contract -/

/-- C8: the `FixedLength(N)` reader.  Before the limit is reached, a read
against an exhausted stream returns the `UnexpectedEof` error, and no
read can report clean success `Ok(0)`; once `position` has reached the
limit, every read returns `Ok(0)` and leaves the stream untouched. -/
theorem c8_limited_read_contract :
    (∀ limit pos stream bufLen, pos < limit → stream = [] →
      (limitedRead limit pos stream bufLen).1 = .eofErr) ∧
    (∀ limit pos (stream : List Nat) bufLen, pos < limit →
      (limitedRead limit pos stream bufLen).1 ≠ .ok []) ∧
    (∀ limit pos (stream : List Nat) bufLen, pos = limit →
      limitedRead limit pos stream bufLen = (.ok [], pos, stream)) := by
  refine ⟨?_, ?_, ?_⟩
  · intro limit pos stream bufLen hpl hs
    subst hs
    simp only [limitedRead]
    rw [if_neg (by omega)]
    simp
  · intro limit pos stream bufLen hpl
    simp only [limitedRead]
    rw [if_neg (by omega)]
    by_cases hn : min (min (limit - pos) bufLen) stream.length = 0
    · rw [if_pos hn]
      simp
    · rw [if_neg hn]
      intro hcontra
      have htake : stream.take (min (min (limit - pos) bufLen) stream.length) = [] := by
        simpa using hcontra
      rcases List.take_eq_nil_iff.mp htake with h0 | h0
      · exact hn (by simp [h0])
      · exact hn (by simp [h0])
  · intro limit pos stream bufLen hpe
    subst hpe
    simp [limitedRead]

/-- Witness for C8: limit 10 — a read at position 3 against an exhausted
stream errors, a read at position 3 never reports `Ok(0)`, and a read at
position 10 returns `Ok(0)`. -/
theorem c8_limited_read_contract_witness :
    (limitedRead 10 3 [] 5).1 = .eofErr ∧
    (limitedRead 10 3 [7] 5).1 ≠ .ok [] ∧
    limitedRead 10 10 [7] 5 = (.ok [], 10, [7]) :=
  ⟨c8_limited_read_contract.1 10 3 [] 5 (by decide) rfl,
   c8_limited_read_contract.2.1 10 3 [7] 5 (by decide),
   c8_limited_read_contract.2.2 10 10 [7] 5 rfl⟩

/-! ## C9: Authorization dropped on redirect -/

lemma isNameB_auth_iff (h : HeaderM) :
    h.isNameB "Authorization" = true ↔ lowerBytes h.nameB = bytes "authorization" := by
  unfold HeaderM.isNameB
  rw [show lowerBytes (bytes "Authorization") = bytes "authorization" from by decide]
  exact beq_iff_eq

lemma hostField_name (u : UnitM) : (hostField u).1 = bytes "Host" := by
  unfold hostField
  cases u.url.port with
  | none => rfl
  | some p =>
    dsimp only
    split_ifs <;> rfl

lemma mem_if_singleton {α : Type} (c : Prop) [Decidable c] (x f : α)
    (h : f ∈ (if c then [x] else [])) : f = x := by
  split_ifs at h
  · simpa using h
  · simp at h

lemma callerFields_auth_free (hs : List HeaderM) :
    ∀ f ∈ callerFields hs true, lowerBytes f.1 ≠ bytes "authorization" := by
  induction hs with
  | nil => intro f hf; simp [callerFields] at hf
  | cons h rest ih =>
    intro f hf
    unfold callerFields at hf
    rw [List.mem_append] at hf
    rcases hf with hl | hr
    · by_cases hauth : h.isNameB "Authorization" = true
      · simp [hauth] at hl
      · have hfalse : h.isNameB "Authorization" = false := by
          revert hauth; cases h.isNameB "Authorization" <;> simp
        rw [hfalse] at hl
        cases hv : h.valueB with
        | none => rw [hv] at hl; simp at hl
        | some v =>
          rw [hv] at hl
          simp at hl
          rw [hl]
          intro hcontra
          exact hauth ((isNameB_auth_iff h).mpr hcontra)
    · exact ih f hr

lemma callerFields_mem (hs : List HeaderM) (h : HeaderM) (v : List Nat)
    (hmem : h ∈ hs) (hv : h.valueB = some v) : (h.nameB, v) ∈ callerFields hs false := by
  induction hs with
  | nil => simp at hmem
  | cons h0 rest ih =>
    unfold callerFields
    rw [List.mem_append]
    rcases List.mem_cons.mp hmem with rfl | hr
    · left; simp [hv]
    · right; exact ih hr

/-- C9: on a redirected retry (`redir = true`) no written header field is
named `Authorization` (in particular none of the fabricated `Host`,
`User-Agent` and `Accept` fields, and every caller header so named is
skipped), while on the initial request (`redir = false`) every caller
header named `Authorization` whose value decodes is written with its
value. -/
theorem c9_authorization_dropped (u : UnitM) :
    (∀ f ∈ sendPreludeFields u true, lowerBytes f.1 ≠ bytes "authorization") ∧
    (∀ h ∈ u.headers, h.isNameB "Authorization" = true →
      ∀ v, h.valueB = some v → (h.nameB, v) ∈ sendPreludeFields u false) := by
  constructor
  · intro f hf
    unfold sendPreludeFields at hf
    rcases List.mem_append.mp hf with h123 | hc
    · rcases List.mem_append.mp h123 with h12 | h3
      · rcases List.mem_append.mp h12 with h1 | h2
        · rw [mem_if_singleton _ _ _ h1, hostField_name]
          decide
        · rw [mem_if_singleton _ _ _ h2]
          show lowerBytes (bytes "User-Agent") ≠ bytes "authorization"
          decide
      · rw [mem_if_singleton _ _ _ h3]
        show lowerBytes (bytes "Accept") ≠ bytes "authorization"
        decide
    · exact callerFields_auth_free u.headers f hc
  · intro h hmem hname v hv
    unfold sendPreludeFields
    exact List.mem_append_right _ (callerFields_mem u.headers h v hmem hv)

/-- A unit carrying one caller header, `Authorization: secret`. -/
def c9Unit : UnitM :=
  ⟨bytes "GET", ⟨"http", bytes "x.org", none, bytes "/", none⟩,
    [⟨bytes "Authorization: secret", 13⟩], bytes "ua"⟩

/-- Witness for C9: on the non-redirected request the caller's
`Authorization: secret` field is written. -/
theorem c9_authorization_dropped_witness :
    ((⟨bytes "Authorization: secret", 13⟩ : HeaderM).nameB, bytes "secret") ∈
      sendPreludeFields c9Unit false :=
  (c9_authorization_dropped c9Unit).2 ⟨bytes "Authorization: secret", 13⟩
    (by decide) (by decide) (bytes "secret") (by decide)

/-- Witness for C7: the two limit behaviours at the concrete stream with
no trailing responses. -/
theorem c7_redirect_limit_witness :
    connectR defaultRedirects (bytes "GET") (bytes "http://host/old")
        (List.replicate 5 redir302v ++ []) = (.tooManyRedirects, 5) :=
  (c7_redirect_limit []).2
